import Mathlib

/-
Verification of the OpenAPI v2 to NDC REST schema converter
(src/openapi/v2.go, package openapi).

The converter's data model and operations are shallowly embedded below.
Pure Go functions become Lean functions; mutation of the converter's
schema registries becomes explicit state passing of a `Registries`
value (the resolver functions of the source only ever read and write
the scalar/object type registries, never the function or procedure
lists, so the narrower state is threaded through them); Go `error`
returns become the `.err` case of `Outcome`, and Go runtime panics
(nil dereferences) become the `.crashed` case.  The recursive schema
resolver is embedded with an explicit fuel parameter: on any input
whose schema tree is smaller than the fuel it computes exactly what
the source computes, and theorems quantify over or instantiate the
fuel accordingly.

Helper functions of the repository that live outside src/openapi/v2.go
(the `utils` and `schema` packages of the repository) are modelled from
the specification; each such definition carries a doc comment starting
with `Modelled from the spec:`.
-/

namespace NdcV2

/-! ## Outcomes: returned errors vs runtime crashes -/

/-- Error values returned by the converter (Go `error` results). -/
inductive ConvErr where
  | emptySchema
  | cannotGetSchemaFromProxy (ref : String)
  | arrayItemEmpty
  | unsupportedObjectParameter
  | unsupportedSchemaType (name : String)
  | cannotParseTypeReferenceName (ref : String)
  | emptyParameterName
  | invalidParameterLocation (loc : String)
  | wrapped (ctx : String) (inner : ConvErr)
  | fuelExhausted
deriving DecidableEq, Repr

/-- Result of running a piece of the converter: a value, a returned Go
error, or a Go runtime panic (`.crashed`). -/
inductive Outcome (α : Type) where
  | ok (val : α)
  | err (e : ConvErr)
  | crashed (msg : String)
deriving DecidableEq

instance : Monad Outcome where
  pure := .ok
  bind m f := match m with
    | .ok a => f a
    | .err e => .err e
    | .crashed s => .crashed s

/-! ## NDC type expressions (hasura/ndc-sdk-go `schema` package) -/

/-- NDC type expressions, the values built by `schema.NewNamedType`,
`schema.NewNullableType` and `schema.NewArrayType` of the NDC SDK.
The SDK constructors simply tag the encoded underlying type; in
particular `NewNullableType` wraps whatever encoder it is given,
without collapsing an already nullable underlying type. -/
inductive TypeEnc where
  | named (name : String)
  | nullable (underlying : TypeEnc)
  | array (element : TypeEnc)
deriving DecidableEq, Repr

/-! ## The denormalized type descriptor (`rest.TypeSchema`) -/

/-- Shape functor for `rest.TypeSchema`; `P` stands for the nested
descriptor position (`Properties` values and `Items`).  Numeric bounds
are kept as integers: the source reads them from `*int` fields of the
v2 parameter before casting. -/
structure TypeSchemaF (P : Type) where
  type : String := ""
  pattern : String := ""
  nullable : Bool := false
  maximum : Option Int := none
  minimum : Option Int := none
  maxLength : Option Int := none
  minLength : Option Int := none
  properties : List (String × P) := []
  items : Option P := none
  description : String := ""

/-- Knot-tying of the recursive `rest.TypeSchema` record. -/
inductive TypeSchemaT where
  | mk (s : TypeSchemaF TypeSchemaT)

/-- The `rest.TypeSchema` record of the repository's schema package. -/
abbrev TypeSchema := TypeSchemaF TypeSchemaT

/-- Boxes a descriptor into the nested-descriptor position. -/
def TypeSchema.box (t : TypeSchema) : TypeSchemaT := .mk t

/-- Unboxes a nested descriptor. -/
def TypeSchemaT.get : TypeSchemaT → TypeSchema
  | .mk s => s

/-- Nullability flag of a nested descriptor. -/
def TypeSchemaT.nullable (t : TypeSchemaT) : Bool := t.get.nullable

/-! ## OpenAPI document model (pb33f/libopenapi, the parts read by v2.go) -/

/-- Shape functor for `base.Schema`; `P` stands for the schema-proxy
position (property values and the array item).  `anyOfLen` models
`len(schema.AnyOf)` and `hasAdditionalProperties` models
`schema.AdditionalProperties != nil`: the source only ever tests those
two facts.  `items` models `schema.Items.A`, the schema side of the
dynamic value; the source treats `Items == nil` and `Items.A == nil`
identically. -/
structure SchemaF (P : Type) where
  type : List String := []
  format : String := ""
  title : String := ""
  description : String := ""
  pattern : String := ""
  nullable : Option Bool := none
  enum : List String := []
  anyOfLen : Nat := 0
  hasAdditionalProperties : Bool := false
  properties : Option (List (String × P)) := none
  required : List String := []
  items : Option P := none

/-- A `base.SchemaProxy`: a reference string plus the schema it
resolves to (`none` when `proxy.Schema()` returns nil). -/
inductive SchemaProxy where
  | mk (ref : String) (schema : Option (SchemaF SchemaProxy))

/-- A `base.Schema` node of the parsed document. -/
abbrev Schema := SchemaF SchemaProxy

/-- The reference string of a proxy (`proxy.GetReference()`). -/
def SchemaProxy.ref : SchemaProxy → String
  | .mk r _ => r

/-- The resolved schema of a proxy (`proxy.Schema()`, nil becomes none). -/
def SchemaProxy.schema : SchemaProxy → Option Schema
  | .mk _ s => s

/-- The item restrictions of a v2 array parameter (`param.Items`, a
`*v2.Items`); the source only reads its `Type` field. -/
structure ItemsV2 where
  type : String := ""

/-- A `v2.Parameter` of the parsed document (the fields read by the
converter). -/
structure Parameter where
  name : String := ""
  location : String := ""
  required : Option Bool := none
  type : String := ""
  format : String := ""
  enum : List String := []
  items : Option ItemsV2 := none
  schema : Option SchemaProxy := none
  pattern : String := ""
  maximum : Option Int := none
  minimum : Option Int := none
  maxLength : Option Int := none
  minLength : Option Int := none
  description : String := ""

/-- A `v2.Response`: the converter only reads its `Schema` proxy. -/
structure Response where
  schema : Option SchemaProxy := none

/-- A `v2.Responses` value: the ordered status-code map (`none` models a
nil `Codes` map, `some []` a present but empty one) and the declared
default response. -/
structure Responses where
  codes : Option (List (String × Response)) := none
  default : Option Response := none

/-- A `v2.Operation` (the fields read by the converter). -/
structure Operation where
  operationId : String := ""
  summary : String := ""
  responses : Option Responses := none
  parameters : List (Option Parameter) := []
  consumes : List String := []

/-- A `v2.PathItem` (the five verb slots read by the converter). -/
structure PathItem where
  get : Option Operation := none
  post : Option Operation := none
  put : Option Operation := none
  patch : Option Operation := none
  delete : Option Operation := none

/-! ## Converter options and target model -/

/-- The recognized conversion options (environment-variable name
namespace and the path segment trimmed before naming). -/
structure ConvertOptions where
  envPfx : String := ""
  trimPfx : String := ""

/-- An NDC object field: encoded type plus optional description. -/
structure ObjectField where
  type : TypeEnc
  description : Option String := none
deriving DecidableEq

/-- An NDC object type definition. -/
structure ObjectType where
  fields : List (String × ObjectField) := []
  description : Option String := none
deriving DecidableEq

/-- The two type registries of the schema envelope.  Scalar entries all
hold the default scalar definition (`schema.NewScalarType()`), so the
scalar registry is modelled by its key set. -/
structure Registries where
  scalarTypes : List String := []
  objectTypes : List (String × ObjectType) := []
deriving DecidableEq

/-- Map insertion with Go map semantics: an existing key is overwritten
in place, a new key is appended. -/
def insertOver (k : String) (v : α) : List (String × α) → List (String × α)
  | [] => [(k, v)]
  | (k2, v2) :: rest => if k2 = k then (k, v) :: rest else (k2, v2) :: insertOver k v rest

/-- Registers a scalar name (both the guarded and the unconditional
assignments of the source leave the key set of the registry the same
way: the name becomes present). -/
def Registries.withScalar (regs : Registries) (n : String) : Registries :=
  if regs.scalarTypes.contains n then regs
  else { regs with scalarTypes := regs.scalarTypes ++ [n] }

/-- Recognized parameter locations of the REST schema package. -/
inductive ParamLoc where
  | query
  | path
  | header
  | body
  | formData
deriving DecidableEq, Repr

/-- Modelled from the spec: `rest.ParseParameterLocation` parses the
declared `in` value into one of the five locations {path, query,
header, body, form-data}; unknown locations are a hard error. -/
def parseParameterLocation : String → Outcome ParamLoc
  | "query" => .ok .query
  | "path" => .ok .path
  | "header" => .ok .header
  | "body" => .ok .body
  | "formData" => .ok .formData
  | s => .err (.invalidParameterLocation s)

/-- A request parameter of the target model (`rest.RequestParameter`). -/
structure RequestParameter where
  name : String
  location : ParamLoc
  schema : Option TypeSchema := none

/-- A request body of the target model (`rest.RequestBody`). -/
structure RequestBody where
  contentType : String := ""
  schema : Option TypeSchema := none

/-- An argument of an operation (`schema.ArgumentInfo`). -/
structure ArgumentInfo where
  type : TypeEnc
  description : Option String := none

/-- The HTTP request descriptor attached to an operation
(`rest.Request`; the security requirement list is not involved in any
verified property and is left out). -/
structure Request where
  url : String
  method : String
  parameters : List RequestParameter := []
  requestBody : Option RequestBody := none

/-- A converted function (`rest.RESTFunctionInfo`). -/
structure FunctionInfo where
  name : String
  arguments : List (String × ArgumentInfo) := []
  resultType : TypeEnc
  request : Request
  description : Option String := none

/-- A converted procedure (`rest.RESTProcedureInfo`). -/
structure ProcedureInfo where
  name : String
  arguments : List (String × ArgumentInfo) := []
  resultType : TypeEnc
  request : Request
  description : Option String := none

/-- The schema envelope being populated (`rest.NDCRestSchema`; the
parts the verified claims are about). -/
structure NDCRestSchema where
  types : Registries := {}
  functions : List FunctionInfo := []
  procedures : List ProcedureInfo := []

/-! ## Naming helpers of the repository's utils package -/

/-- Modelled from the spec: `utils.ToPascalCase` turns a path segment
into PascalCase; for the segments the converter produces this is
capitalization of the first letter. -/
def toPascalCase (s : String) : String :=
  match s.data with
  | [] => ""
  | c :: cs => String.mk (c.toUpper :: cs)

/-- Modelled from the spec: `utils.StringSliceToPascalCase` joins the
accumulated field-path segments in PascalCase, e.g. `["Pet","Owner"]`
becomes `"PetOwner"`. -/
def stringSliceToPascalCase (xs : List String) : String :=
  String.join (xs.map toPascalCase)

/-- Modelled from the spec: `getSchemaRefTypeNameV2` extracts the
definition name from a `#/definitions/Name` reference and returns the
empty string for any other reference. -/
def getSchemaRefTypeNameV2 (ref : String) : String :=
  if ("#/definitions/").isPrefixOf ref then ref.drop ("#/definitions/").length else ""

/-- Modelled from the spec: the Scalar Classifier decides whether a
primitive OpenAPI type maps to a scalar kind. -/
def isPrimitiveScalar (t : String) : Bool :=
  t = "string" ∨ t = "number" ∨ t = "integer" ∨ t = "boolean"

/-- Modelled from the spec: the scalar name derived from type, format,
enum values and the naming context (deterministic; enumerations are
named from the field-path context). -/
def scalarNameOf (types : List String) (format : String) (enums : List String)
    (fieldPaths : List String) : String :=
  if enums ≠ [] then stringSliceToPascalCase (fieldPaths ++ ["Enum"])
  else
    match types.headD "", format with
    | "string", _ => "String"
    | "boolean", _ => "Boolean"
    | "integer", _ => "Int"
    | "number", _ => "Float"
    | _, _ => "JSON"

/-- Modelled from the spec: `getScalarFromType` derives the scalar name
and creates the scalar registry entry on demand. -/
def getScalarFromType (regs : Registries) (types : List String) (format : String)
    (enums : List String) (_apiPath : String) (fieldPaths : List String) :
    String × Registries :=
  let n := scalarNameOf types format enums fieldPaths
  (n, regs.withScalar n)

/-- Modelled from the spec: `getNamedType` reads the name of the
innermost named type of an encoder, falling back to the declared
OpenAPI type name. -/
def getNamedType : TypeEnc → String → String
  | .named n, _ => n
  | .nullable t, d => getNamedType t d
  | .array _, d => d

/-- Modelled from the spec: `createSchemaFromOpenAPISchema` builds the
denormalized descriptor of a schema node: the scalar name (or empty
placeholder), the nullable flag and the string constraints carried by
the node. -/
def createSchemaFromOpenAPISchema (s : Schema) (scalarName : String) : TypeSchema :=
  { type := scalarName
    pattern := s.pattern
    nullable := s.nullable = some true
    description := s.description }

/-- Modelled from the spec: `buildPathMethodName` synthesizes a
deterministic operation name from the path template and the HTTP
method when no operation identifier is declared. -/
def buildPathMethodName (pathKey : String) (method : String) : String :=
  method ++ stringSliceToPascalCase ((pathKey.split (· = '/')).filter (· ≠ ""))

/-- `oc.trimPathPrefix`: strips the configured path namespace from an
API path before it is used as naming context (Go `strings.TrimPrefix`). -/
def trimPathPfx (opts : ConvertOptions) (input : String) : String :=
  if opts.trimPfx = "" then input
  else if opts.trimPfx.isPrefixOf input then input.drop opts.trimPfx.length
  else input

/-- The `rest.ContentTypeJSON` constant. -/
def contentTypeJSON : String := "application/json"

/-- The `rest.ContentTypeMultipartFormData` constant. -/
def contentTypeMultipartFormData : String := "multipart/form-data"

/-! ## The Type Resolver

The two mutually recursive source functions `getSchemaType` and
`getSchemaTypeFromProxy` are embedded as one fuel-indexed function over
a two-case request type; the wrappers below restore the source
signatures.  Each recursive call spends one unit of fuel, and running
out of fuel yields the distinguished `.fuelExhausted` error (which the
source can never produce). -/

/-- A pending resolution request: a schema node (`getSchemaType`) or a
schema proxy with a caller-supplied nullability hint
(`getSchemaTypeFromProxy`). -/
inductive SchemaReq where
  | ofSchema (ts : Option Schema) (fieldPaths : List String)
  | ofProxy (proxy : Option SchemaProxy) (nullableHint : Bool) (fieldPaths : List String)

/-- The field-path override of `getSchemaTypeFromProxy`: a single-word
schema title replaces the accumulated field path. -/
def proxyFieldPaths (inner : Schema) (fieldPaths : List String) : List String :=
  if inner.title ≠ "" ∧ !(inner.title.contains ' ') then [toPascalCase inner.title]
  else fieldPaths

/-- The fuel-indexed resolver; see `getSchemaType` and
`getSchemaTypeFromProxy` for the correspondence with the source. -/
def resolveSchema (opts : ConvertOptions) :
    Nat → Registries → String → SchemaReq → Outcome (TypeEnc × TypeSchema × Registries)
  | 0, _, _, _ => .err .fuelExhausted
  | f+1, regs, apiPath, .ofProxy proxy nullableHint fieldPaths =>
    match proxy with
    | none => .err .emptySchema
    | some sp =>
      match sp.schema with
      | none => .err (.cannotGetSchemaFromProxy sp.ref)
      | some inner =>
        let refName := getSchemaRefTypeNameV2 sp.ref
        let step : Outcome (TypeEnc × TypeSchema × Registries) :=
          if refName ≠ "" ∧ inner.type.length > 0 ∧ inner.type.headD "" = "object" then
            .ok (.named (toPascalCase refName), { type := refName }, regs)
          else
            resolveSchema opts f regs apiPath
              (.ofSchema (some inner) (proxyFieldPaths inner fieldPaths))
        match step with
        | .ok (ndcType, ts, regs2) =>
          .ok (if nullableHint then .nullable ndcType else ndcType, ts, regs2)
        | .err e => .err e
        | .crashed m => .crashed m
  | f+1, regs, apiPath, .ofSchema ts fieldPaths =>
    match ts with
    | none => .err .emptySchema
    | some s =>
      if s.anyOfLen > 0 ∨ s.hasAdditionalProperties ∨ s.type.length > 1 then
        let regs := regs.withScalar "JSON"
        .ok (.named "JSON", createSchemaFromOpenAPISchema s "JSON", regs)
      else if s.type.length = 0 then .err .emptySchema
      else
        let typeName := s.type.headD ""
        let step : Outcome (TypeEnc × TypeSchema × Registries) :=
          if isPrimitiveScalar typeName then
            let pair := getScalarFromType regs s.type s.format s.enum (trimPathPfx opts apiPath) fieldPaths
            .ok (.named pair.1, createSchemaFromOpenAPISchema s pair.1, pair.2)
          else
            let typeResult := { createSchemaFromOpenAPISchema s "" with type := typeName }
            match typeName with
            | "object" =>
              let refName := stringSliceToPascalCase fieldPaths
              match s.properties with
              | none => .ok (.named refName, typeResult, regs.withScalar refName)
              | some [] => .ok (.named refName, typeResult, regs.withScalar refName)
              | some props =>
                let folded := props.foldl
                  (fun (acc : Outcome (List (String × ObjectField) ×
                      List (String × TypeSchemaT) × Registries)) pr =>
                  match acc with
                  | .ok (flds, tds, regs) =>
                    let propNullable := !(s.required.contains pr.1)
                    match resolveSchema opts f regs apiPath
                        (.ofProxy (some pr.2) propNullable (fieldPaths ++ [pr.1])) with
                    | .ok (propType, propApiSchema, regs2) =>
                      let objField : ObjectField :=
                        { type := propType
                          description :=
                            if propApiSchema.description = "" then none
                            else some propApiSchema.description }
                      .ok (insertOver pr.1 objField flds,
                           insertOver pr.1
                             (TypeSchema.box { propApiSchema with nullable := propNullable }) tds,
                           regs2)
                    | .err e => .err e
                    | .crashed m => .crashed m
                  | e => e)
                  (.ok (([] : List (String × ObjectField)),
                        ([] : List (String × TypeSchemaT)), regs))
                match folded with
                | .ok (flds, tds, regs2) =>
                  let object : ObjectType :=
                    { fields := flds
                      description := if s.description = "" then none else some s.description }
                  .ok (.named refName, { typeResult with properties := tds },
                       { regs2 with objectTypes := insertOver refName object regs2.objectTypes })
                | .err e => .err e
                | .crashed m => .crashed m
            | "array" =>
              match s.items with
              | none => .err .arrayItemEmpty
              | some itemProxy =>
                let itemName := getSchemaRefTypeNameV2 itemProxy.ref
                if itemName ≠ "" then
                  .ok (.array (.named itemName), typeResult, regs)
                else
                  match itemProxy.schema with
                  | some itemSchemaA =>
                    match resolveSchema opts f regs apiPath
                        (.ofSchema (some itemSchemaA) fieldPaths) with
                    | .ok (itemEnc, propType, regs2) =>
                      .ok (.array itemEnc,
                           { typeResult with items := some (TypeSchema.box propType) }, regs2)
                    | .err e => .err e
                    | .crashed m => .crashed m
                  | none => .err (.cannotParseTypeReferenceName itemProxy.ref)
            | other => .err (.unsupportedSchemaType other)
        match step with
        | .ok (result, typeResult, regs2) =>
          .ok (if s.nullable = some true then .nullable result else result, typeResult, regs2)
        | .err e => .err e
        | .crashed m => .crashed m

/-- `getSchemaType` of the source: converts an OpenAPI schema node to
an NDC type, a descriptor and the updated registries. -/
def getSchemaType (opts : ConvertOptions) (fuel : Nat) (regs : Registries)
    (ts : Option Schema) (apiPath : String) (fieldPaths : List String) :
    Outcome (TypeEnc × TypeSchema × Registries) :=
  resolveSchema opts fuel regs apiPath (.ofSchema ts fieldPaths)

/-- `getSchemaTypeFromProxy` of the source: resolves a schema proxy,
applying the caller-supplied nullability hint. -/
def getSchemaTypeFromProxy (opts : ConvertOptions) (fuel : Nat) (regs : Registries)
    (proxy : Option SchemaProxy) (nullableHint : Bool) (apiPath : String)
    (fieldPaths : List String) : Outcome (TypeEnc × TypeSchema × Registries) :=
  resolveSchema opts fuel regs apiPath (.ofProxy proxy nullableHint fieldPaths)

/-- `paramRequired`: the required flag of a parameter
(`param.Required != nil && *param.Required`). -/
def paramRequired (p : Parameter) : Bool :=
  match p.required with
  | some b => b
  | none => false

/-- `getSchemaTypeFromParameter` of the source: converts a
primitively-typed parameter to an NDC type.  The source's array guard
reads `param.Items == nil && param.Items.Type == ""`: when `Items` is
nil the right conjunct dereferences the nil pointer, which is a runtime
panic, and when `Items` is non-nil the short-circuited conjunction is
false, so the `"array item is empty"` error return is unreachable. -/
def getSchemaTypeFromParameter (opts : ConvertOptions) (regs : Registries)
    (param : Parameter) (apiPath : String) (fieldPaths : List String) :
    Outcome (TypeEnc × Registries) :=
  if param.type = "" then .err .emptySchema
  else
    let step : Outcome (TypeEnc × Registries) :=
      if isPrimitiveScalar param.type then
        let pair := getScalarFromType regs [param.type] param.format param.enum
          (trimPathPfx opts apiPath) fieldPaths
        .ok (.named pair.1, pair.2)
      else
        match param.type with
        | "object" => .err .unsupportedObjectParameter
        | "array" =>
          match param.items with
          | none => .crashed "runtime error: invalid memory address or nil pointer dereference"
          | some items =>
            let pair := getScalarFromType regs [items.type] param.format param.enum
              (trimPathPfx opts apiPath) fieldPaths
            .ok (.array (.named pair.1), pair.2)
        | other => .err (.unsupportedSchemaType other)
    match step with
    | .ok (result, regs2) =>
      if !(paramRequired param) then .ok (.nullable result, regs2) else .ok (result, regs2)
    | .err e => .err e
    | .crashed m => .crashed m

/-! ## The Parameter Converter -/

/-- Accumulator of the parameter conversion loop: the argument map, the
ordered request parameters, the request body set by a `body` parameter
and the synthesized form-data object properties. -/
structure ParamAcc where
  args : List (String × ArgumentInfo) := []
  reqParams : List RequestParameter := []
  requestBody : Option RequestBody := none
  formDataProps : List (String × TypeSchemaT) := []

/-- The descriptor built inline for a primitively-typed parameter
(the `param.Type != ""` branch of `convertParameters`). -/
def paramInlineSchema (p : Parameter) (enc : TypeEnc) : TypeSchema :=
  { type := getNamedType enc p.type
    pattern := p.pattern
    nullable := !(paramRequired p)
    maximum := p.maximum
    minimum := p.minimum
    maxLength := p.maxLength
    minLength := p.minLength }

/-- The type-resolution step of one parameter-loop iteration: a
primitive `type` resolves through `getSchemaTypeFromParameter` with an
inline descriptor; otherwise a declared schema resolves through
`getSchemaTypeFromProxy`; otherwise both the encoder and the descriptor
stay nil. -/
def resolveParamType (opts : ConvertOptions) (fuel : Nat) (regs : Registries)
    (param : Parameter) (apiPath : String) (fieldPaths : List String) :
    Outcome (Option TypeEnc × Option TypeSchema × Registries) :=
  if param.type ≠ "" then
    match getSchemaTypeFromParameter opts regs param apiPath fieldPaths with
    | .ok (enc, regs2) => .ok (some enc, some (paramInlineSchema param enc), regs2)
    | .err e => .err e
    | .crashed m => .crashed m
  else
    match param.schema with
    | some sp =>
      match getSchemaTypeFromProxy opts fuel regs (some sp) (!(paramRequired param))
          apiPath fieldPaths with
      | .ok (enc, ts, regs2) => .ok (some enc, some ts, regs2)
      | .err e => .err e
      | .crashed m => .crashed m
    | none => .ok (none, none, regs)

/-- One iteration of the parameter loop of `convertParameters`.  A
parameter with neither a primitive type nor a schema leaves the Go
`schema.TypeEncoder` interface value nil, and the subsequent
`schemaType.Encode()` call is a nil-interface method call, i.e. a
runtime panic. -/
def convertOneParameter (opts : ConvertOptions) (fuel : Nat) (apiPath : String)
    (fieldPaths : List String) (regs : Registries) (acc : ParamAcc) (param : Parameter) :
    Outcome (ParamAcc × Registries) :=
    if param.name = "" then .err .emptyParameterName
    else
      match resolveParamType opts fuel regs param apiPath fieldPaths with
      | .err e => .err e
      | .crashed m => .crashed m
      | .ok (enc?, ts?, regs2) =>
        match parseParameterLocation param.location with
        | .err e => .err e
        | .crashed m => .crashed m
        | .ok loc =>
          match enc? with
          | none => .crashed "runtime error: invalid memory address or nil pointer dereference"
          | some enc =>
            let argument : ArgumentInfo :=
              { type := enc
                description := if param.description = "" then none else some param.description }
            let acc2 :=
              match loc with
              | .body =>
                { acc with args := insertOver "body" argument acc.args
                           requestBody := some { schema := ts? } }
              | .formData =>
                { acc with args := insertOver param.name argument acc.args
                           formDataProps :=
                             match ts? with
                             | some ts =>
                               insertOver param.name (TypeSchema.box ts) acc.formDataProps
                             | none => acc.formDataProps }
              | _ =>
                { acc with args := insertOver param.name argument acc.args
                           reqParams := acc.reqParams ++
                             [{ name := param.name, location := loc, schema := ts? }] }
            .ok (acc2, regs2)

/-- The parameter loop of `convertParameters`, iterating the declared
parameter list in order (nil entries are skipped, errors and crashes
abort the loop). -/
def convertParametersAux (opts : ConvertOptions) (fuel : Nat) (apiPath : String)
    (fieldPaths : List String) :
    Registries → ParamAcc → List (Option Parameter) → Outcome (ParamAcc × Registries)
  | regs, acc, [] => .ok (acc, regs)
  | regs, acc, none :: rest => convertParametersAux opts fuel apiPath fieldPaths regs acc rest
  | regs, acc, some param :: rest =>
    match convertOneParameter opts fuel apiPath fieldPaths regs acc param with
    | .ok (acc2, regs2) => convertParametersAux opts fuel apiPath fieldPaths regs2 acc2 rest
    | .err e => .err e
    | .crashed m => .crashed m

/-- `convertParameters` of the source: converts an operation's
parameter list into the argument map, the ordered request parameters
and the optional request body; accumulated form-data properties
replace the request body with a synthesized `multipart/form-data`
object. -/
def convertParameters (opts : ConvertOptions) (fuel : Nat) (regs : Registries)
    (params : List (Option Parameter)) (apiPath : String) (fieldPaths : List String) :
    Outcome (List (String × ArgumentInfo) × List RequestParameter ×
      Option RequestBody × Registries) :=
  if params.isEmpty then .ok ([], [], none, regs)
  else
    match convertParametersAux opts fuel apiPath fieldPaths regs {} params with
    | .ok (acc, regs2) =>
      let requestBody :=
        if acc.formDataProps.isEmpty then acc.requestBody
        else some { contentType := contentTypeMultipartFormData
                    schema := some { type := "object", properties := acc.formDataProps } }
      .ok (acc.args, acc.reqParams, requestBody, regs2)
    | .err e => .err e
    | .crashed m => .crashed m

/-! ## The Response Resolver -/

/-- The success-response selection loop of `convertResponse`: the first
declared response among the codes 200, 201 and 204, in that order. -/
def selectSuccessResponse (codes : List (String × Response)) : Option Response :=
  match codes.lookup "200" with
  | some r => some r
  | none =>
    match codes.lookup "201" with
    | some r => some r
    | none => codes.lookup "204"

/-- `convertResponse` of the source.  The first guard returns a nil
result when the responses value is nil, its code map is nil or the code
map is empty; the source's second guard repeats the last two conditions
to fall back to the declared default response, but having passed the
first guard that condition can no longer hold, so the fallback
assignment is unreachable and is kept here verbatim as dead code. -/
def convertResponse (opts : ConvertOptions) (fuel : Nat) (regs : Registries)
    (responses : Option Responses) (apiPath : String) (fieldPaths : List String) :
    Outcome (Option TypeEnc × Registries) :=
  match responses with
  | none => .ok (none, regs)
  | some rs =>
    match rs.codes with
    | none => .ok (none, regs)
    | some [] => .ok (none, regs)
    | some codes =>
      let resp : Option Response :=
        if codes.isEmpty then rs.default
        else selectSuccessResponse codes
      match resp with
      | none => .ok (some (.nullable (.named "Boolean")), regs)
      | some r =>
        match r.schema with
        | none => .ok (some (.nullable (.named "Boolean")), regs)
        | some sp =>
          match getSchemaTypeFromProxy opts fuel regs (some sp) false apiPath fieldPaths with
          | .ok (t, _, regs2) => .ok (some t, regs2)
          | .err e => .err e
          | .crashed m => .crashed m

/-! ## The Operation Mapper -/

/-- The procedure name chosen for an operation: the declared operation
identifier, else the synthesized path-and-method name. -/
def procNameOf (pathKey : String) (method : String) (op : Operation) : String :=
  if op.operationId = "" then buildPathMethodName pathKey method else op.operationId

/-- The body of `convertProcedureOperation` for a present operation
(the source reaches this code after its early nil return). -/
def convertProcedureOperationSome (opts : ConvertOptions) (fuel : Nat) (regs : Registries)
    (pathKey : String) (method : String) (op : Operation) :
    Outcome (Option ProcedureInfo × Registries) :=
    let procName := procNameOf pathKey method op
    match convertResponse opts fuel regs op.responses pathKey [procName, "Result"] with
    | .err e => .err (.wrapped pathKey e)
    | .crashed m => .crashed m
    | .ok (none, regs2) => .ok (none, regs2)
    | .ok (some resultType, regs2) =>
      match convertParameters opts fuel regs2 op.parameters pathKey [procName] with
      | .err e => .err (.wrapped pathKey e)
      | .crashed m => .crashed m
      | .ok (args, reqParams, reqBody0, regs3) =>
        let reqBody :=
          match reqBody0 with
          | some rb =>
            if op.consumes ≠ [] then
              some { rb with contentType :=
                if op.consumes.contains contentTypeJSON then contentTypeJSON
                else op.consumes.headD "" }
            else some rb
          | none => none
        .ok (some
          { name := procName
            arguments := args
            resultType := resultType
            request := { url := pathKey, method := method,
                         parameters := reqParams, requestBody := reqBody }
            description := if op.summary = "" then none else some op.summary }, regs3)

/-- `convertProcedureOperation` of the source: maps a mutating
operation to a procedure, skipping it silently when the operation is
absent or its response resolution yields no result type, and fixing the
request content type from the declared consumes list. -/
def convertProcedureOperation (opts : ConvertOptions) (fuel : Nat) (regs : Registries)
    (pathKey : String) (method : String) (operation : Option Operation) :
    Outcome (Option ProcedureInfo × Registries) :=
  match operation with
  | none => .ok (none, regs)
  | some op => convertProcedureOperationSome opts fuel regs pathKey method op

/-- Appends the procedure produced for one verb slot, as the four
procedure blocks of `pathToNDCOperations` do. -/
def procStep (opts : ConvertOptions) (fuel : Nat) (st : NDCRestSchema)
    (pathKey : String) (method : String) (operation : Option Operation) :
    Outcome NDCRestSchema :=
  match convertProcedureOperation opts fuel st.types pathKey method operation with
  | .ok (some proc, regs) =>
    .ok { st with types := regs, procedures := st.procedures ++ [proc] }
  | .ok (none, regs) => .ok { st with types := regs }
  | .err e => .err e
  | .crashed m => .crashed m

/-- The function name chosen for a GET operation. -/
def getFuncName (pathKey : String) (op : Operation) : String :=
  procNameOf pathKey "get" op

/-- The GET block of `pathToNDCOperations`: appends a function exactly
when the GET slot is present and its response resolution yields a
result type. -/
def convertGetOperation (opts : ConvertOptions) (fuel : Nat) (st : NDCRestSchema)
    (pathKey : String) : Option Operation → Outcome NDCRestSchema
  | none => .ok st
  | some itemGet =>
    let funcName := getFuncName pathKey itemGet
    match convertResponse opts fuel st.types itemGet.responses pathKey
        [funcName, "Result"] with
    | .err e => .err (.wrapped pathKey e)
    | .crashed m => .crashed m
    | .ok (none, regs) => .ok { st with types := regs }
    | .ok (some resultType, regs) =>
      match convertParameters opts fuel regs itemGet.parameters pathKey [funcName] with
      | .err e => .err (.wrapped funcName e)
      | .crashed m => .crashed m
      | .ok (args, reqParams, reqBody, regs2) =>
        .ok { st with
          types := regs2
          functions := st.functions ++
            [{ name := funcName
               arguments := args
               resultType := resultType
               request := { url := pathKey, method := "get",
                            parameters := reqParams, requestBody := reqBody }
               description := if itemGet.summary = "" then none else some itemGet.summary }] }

/-- The four procedure blocks of `pathToNDCOperations`, in source
order: post, put, patch, delete. -/
def procSteps (opts : ConvertOptions) (fuel : Nat) (st : NDCRestSchema)
    (pathKey : String) (item : PathItem) : Outcome NDCRestSchema :=
  match procStep opts fuel st pathKey "post" item.post with
  | .err e => .err e
  | .crashed m => .crashed m
  | .ok st2 =>
    match procStep opts fuel st2 pathKey "put" item.put with
    | .err e => .err e
    | .crashed m => .crashed m
    | .ok st3 =>
      match procStep opts fuel st3 pathKey "patch" item.patch with
      | .err e => .err e
      | .crashed m => .crashed m
      | .ok st4 => procStep opts fuel st4 pathKey "delete" item.delete

/-- `pathToNDCOperations` of the source: maps the GET slot of a path
item to a function when its response resolution yields a result type,
then maps the post, put, patch and delete slots to procedures in that
order. -/
def pathToNDCOperations (opts : ConvertOptions) (fuel : Nat) (st : NDCRestSchema)
    (pathKey : String) (item : PathItem) : Outcome NDCRestSchema :=
  match convertGetOperation opts fuel st pathKey item.get with
  | .err e => .err e
  | .crashed m => .crashed m
  | .ok st1 => procSteps opts fuel st1 pathKey item

/-! ## Concrete document fixtures used by the verification -/

/-- A plain inline string schema node. -/
def strSchema : Schema := { type := ["string"] }

/-- A proxy around the plain string schema. -/
def strProxy : SchemaProxy := .mk "" (some strSchema)

/-- An inline string schema with an explicit `nullable: true` marker. -/
def nullStrSchema : Schema := { type := ["string"], nullable := some true }

/-- A proxy around the nullable string schema. -/
def nullStrProxy : SchemaProxy := .mk "" (some nullStrSchema)

/-- Responses declaring only a 404 code and a default response whose
schema resolves to a string. -/
def resp404 : Responses :=
  { codes := some [("404", { schema := none })]
    default := some { schema := some strProxy } }

/-- Responses declaring only a 201 code carrying a string schema. -/
def resp201 : Responses := { codes := some [("201", { schema := some strProxy })] }

/-- Responses declaring a 200 code with no content schema. -/
def resp200NoSchema : Responses := { codes := some [("200", { schema := none })] }

/-- An array-typed query parameter with no item restrictions
(`param.Items` is nil). -/
def arrayNoItemsParam : Parameter := { name := "ids", location := "query", type := "array" }

/-- A named query parameter declaring neither a primitive type nor a
schema. -/
def bareParam : Parameter := { name := "x", location := "query" }

/-- The `file` form-data parameter of the specification's form-data
example (optional string). -/
def fileParam : Parameter := { name := "file", location := "formData", type := "string" }

/-- The `tag` form-data parameter of the specification's form-data
example (required string). -/
def tagParam : Parameter :=
  { name := "tag", location := "formData", type := "string", required := some true }

/-- A body parameter carrying the string schema. -/
def bodyParam : Parameter := { name := "data", location := "body", schema := some strProxy }

/-- The form-data example parameter list of the specification. -/
def c6params : List (Option Parameter) := [some fileParam, some tagParam]

/-- The argument map produced for the form-data example. -/
def c6args : List (String × ArgumentInfo) :=
  match convertParameters {} 10 {} c6params "/pets" ["upload"] with
  | .ok (args, _, _, _) => args
  | _ => []

/-- The request parameters produced for the form-data example. -/
def c6rps : List RequestParameter :=
  match convertParameters {} 10 {} c6params "/pets" ["upload"] with
  | .ok (_, rps, _, _) => rps
  | _ => []

/-- The request body produced for the form-data example. -/
def c6rb : Option RequestBody :=
  match convertParameters {} 10 {} c6params "/pets" ["upload"] with
  | .ok (_, _, rb, _) => rb
  | _ => none

/-- The registries produced for the form-data example. -/
def c6regs : Registries :=
  match convertParameters {} 10 {} c6params "/pets" ["upload"] with
  | .ok (_, _, _, regs) => regs
  | _ => {}

/-- A POST operation with a body parameter and two consumable media
types, JSON second. -/
def c7op : Operation :=
  { responses := some resp201
    parameters := [some bodyParam]
    consumes := ["text/plain", "application/json"] }

/-- The converted procedure of `c7op`. -/
def c7proc : ProcedureInfo :=
  match convertProcedureOperation {} 10 {} "/pets" "post" (some c7op) with
  | .ok (some p, _) => p
  | _ => { name := "", resultType := .named "", request := { url := "", method := "" } }

/-- The registries after converting `c7op`. -/
def c7regs : Registries :=
  match convertProcedureOperation {} 10 {} "/pets" "post" (some c7op) with
  | .ok (_, r) => r
  | _ => {}

/-- The request body of the converted procedure of `c7op`. -/
def c7rb : RequestBody :=
  match c7proc.request.requestBody with
  | some rb => rb
  | none => {}

/-- A GET operation with no declared responses. -/
def noRespGet : Operation := { operationId := "listPets" }

/-- A POST operation whose only response declares no content schema. -/
def contentlessPost : Operation := { operationId := "createPet", responses := some resp200NoSchema }

/-- The path item of the specification's skip example: a GET with no
usable response and a POST with a resolvable (contentless) response. -/
def skipExampleItem : PathItem := { get := some noRespGet, post := some contentlessPost }

/-- The schema envelope after converting `skipExampleItem`. -/
def c3st : NDCRestSchema :=
  match pathToNDCOperations {} 10 {} "/pets" skipExampleItem with
  | .ok st => st
  | _ => {}

/-- The procedure produced for `contentlessPost`. -/
def c3proc : ProcedureInfo :=
  match convertProcedureOperation {} 10 ({} : NDCRestSchema).types "/pets" "post"
      (some contentlessPost) with
  | .ok (some p, _) => p
  | _ => { name := "", resultType := .named "", request := { url := "", method := "" } }

/-- The registries produced alongside `c3proc`. -/
def c3regs : Registries :=
  match convertProcedureOperation {} 10 ({} : NDCRestSchema).types "/pets" "post"
      (some contentlessPost) with
  | .ok (_, r) => r
  | _ => {}

/-- An inline object schema with a single `city` string property,
nested below `petSchema`. -/
def ownerSchema : Schema :=
  { type := ["object"], properties := some [("city", .mk "" (some strSchema))] }

/-- An inline pet object schema containing `ownerSchema` under the
`owner` property. -/
def petSchema : Schema :=
  { type := ["object"]
    properties := some [("name", .mk "" (some strSchema)), ("owner", .mk "" (some ownerSchema))]
    required := ["name"] }

/-- The resolver outcome of `petSchema` under the field path `[Pet]`. -/
def c5out : TypeEnc × TypeSchema × Registries :=
  match getSchemaType {} 10 {} (some petSchema) "/pets" ["Pet"] with
  | .ok v => v
  | _ => (.named "", {}, {})

/-- An object schema node with no declared properties. -/
def emptyObjSchema : Schema := { type := ["object"] }

/-- The form-data parameters of a parameter list: the parameters whose
declared location is the form-data location. -/
def formDataParams (params : List (Option Parameter)) : List Parameter :=
  params.filterMap (fun p? =>
    match p? with
    | some p => if p.location = "formData" then some p else none
    | none => none)

/-! ## Helper lemmas -/

theorem lookup_insertOver_self (k : String) (v : α) (m : List (String × α)) :
    (insertOver k v m).lookup k = some v := by
  induction m with
  | nil => simp [insertOver, List.lookup]
  | cons hd tl ih =>
    by_cases h : hd.1 = k
    · simp [insertOver, h, List.lookup]
    · have hb : (k == hd.1) = false := beq_eq_false_iff_ne.mpr (Ne.symm h)
      simp [insertOver, h, List.lookup, hb, ih]

theorem insertOver_fresh (k : String) (v : α) (m : List (String × α))
    (h : ∀ kv ∈ m, kv.1 ≠ k) : insertOver k v m = m ++ [(k, v)] := by
  induction m with
  | nil => simp [insertOver]
  | cons hd tl ih =>
    have hhd : hd.1 ≠ k := h hd (by simp)
    simp only [insertOver, hhd, if_false, List.cons_append, List.cons.injEq, true_and]
    exact ih (fun kv hkv => h kv (by simp [hkv]))

theorem withScalar_contains (regs : Registries) (n : String) :
    (regs.withScalar n).scalarTypes.contains n = true := by
  unfold Registries.withScalar
  split
  · assumption
  · simp

theorem withScalar_objectTypes (regs : Registries) (n : String) :
    (regs.withScalar n).objectTypes = regs.objectTypes := by
  unfold Registries.withScalar
  split <;> rfl

theorem procStep_functions (opts : ConvertOptions) (fuel : Nat) (st : NDCRestSchema)
    (pathKey : String) (method : String) (op : Option Operation) (st2 : NDCRestSchema)
    (h : procStep opts fuel st pathKey method op = .ok st2) : st2.functions = st.functions := by
  unfold procStep at h
  split at h <;> cases h <;> rfl

theorem procStep_none (opts : ConvertOptions) (fuel : Nat) (st : NDCRestSchema)
    (pathKey : String) (method : String) :
    procStep opts fuel st pathKey method none = .ok st := rfl

theorem procSteps_functions (opts : ConvertOptions) (fuel : Nat) (st : NDCRestSchema)
    (pathKey : String) (item : PathItem) (st2 : NDCRestSchema)
    (h : procSteps opts fuel st pathKey item = .ok st2) : st2.functions = st.functions := by
  unfold procSteps at h
  cases h1 : procStep opts fuel st pathKey "post" item.post with
  | err e => simp only [h1] at h; cases h
  | crashed m => simp only [h1] at h; cases h
  | ok stA =>
    simp only [h1] at h
    cases h2 : procStep opts fuel stA pathKey "put" item.put with
    | err e => simp only [h2] at h; cases h
    | crashed m => simp only [h2] at h; cases h
    | ok stB =>
      simp only [h2] at h
      cases h3 : procStep opts fuel stB pathKey "patch" item.patch with
      | err e => simp only [h3] at h; cases h
      | crashed m => simp only [h3] at h; cases h
      | ok stC =>
        simp only [h3] at h
        calc st2.functions = stC.functions := procStep_functions _ _ _ _ _ _ _ h
          _ = stB.functions := procStep_functions _ _ _ _ _ _ _ h3
          _ = stA.functions := procStep_functions _ _ _ _ _ _ _ h2
          _ = st.functions := procStep_functions _ _ _ _ _ _ _ h1

theorem parseParameterLocation_formData (s : String)
    (h : parseParameterLocation s = .ok .formData) : s = "formData" := by
  unfold parseParameterLocation at h
  split at h <;> first
    | rfl
    | cases h

theorem no_self_append_singleton (l : List α) (f : α) : l ≠ l ++ [f] := by
  intro h
  have := congrArg List.length h
  simp at this

theorem isPrimitiveScalar_ne_object (t : String) (h : isPrimitiveScalar t = true) :
    t ≠ "object" := by
  have h2 := of_decide_eq_true h
  rcases h2 with h | h | h | h <;> subst h <;> decide

/-- One-step unfolding of the proxy case of the resolver. -/
theorem resolveSchema_ofProxy (opts : ConvertOptions) (fuel : Nat) (regs : Registries)
    (apiPath : String) (fps : List String) (proxy : Option SchemaProxy) (hint : Bool) :
    resolveSchema opts (fuel+1) regs apiPath (.ofProxy proxy hint fps)
      = match proxy with
        | none => .err .emptySchema
        | some sp =>
          match sp.schema with
          | none => .err (.cannotGetSchemaFromProxy sp.ref)
          | some inner =>
            let refName := getSchemaRefTypeNameV2 sp.ref
            let step : Outcome (TypeEnc × TypeSchema × Registries) :=
              if refName ≠ "" ∧ inner.type.length > 0 ∧ inner.type.headD "" = "object" then
                .ok (.named (toPascalCase refName), { type := refName }, regs)
              else
                resolveSchema opts fuel regs apiPath
                  (.ofSchema (some inner) (proxyFieldPaths inner fps))
            match step with
            | .ok (ndcType, ts, regs2) =>
              .ok (if hint then .nullable ndcType else ndcType, ts, regs2)
            | .err e => .err e
            | .crashed m => .crashed m := rfl

/-- Resolution of a primitive schema node: the scalar classifier names
and registers the scalar, and the node's own nullable flag wraps the
result once. -/
theorem resolveSchema_primitive (opts : ConvertOptions) (fuel : Nat) (regs : Registries)
    (apiPath : String) (fps : List String) (s : Schema) (t : String)
    (h1 : s.type = [t]) (h2 : isPrimitiveScalar t = true) (h3 : s.anyOfLen = 0)
    (h4 : s.hasAdditionalProperties = false) :
    resolveSchema opts (fuel+1) regs apiPath (.ofSchema (some s) fps)
      = .ok ((if s.nullable = some true then
                TypeEnc.nullable (.named (scalarNameOf s.type s.format s.enum fps))
              else .named (scalarNameOf s.type s.format s.enum fps)),
          createSchemaFromOpenAPISchema s (scalarNameOf s.type s.format s.enum fps),
          regs.withScalar (scalarNameOf s.type s.format s.enum fps)) := by
  simp only [resolveSchema, h1, h2, h3, h4, getScalarFromType, List.length_cons,
    List.length_nil, List.headD_cons, if_true, if_false]
  norm_num

/-! ## Claim theorems -/

/-- C1: for a responses map declaring only a 404 status code together
with a declared default response whose schema resolves to the String
scalar, the Response Resolver returns the nullable Boolean result and
never consults the default response (the fallback branch of the source
is unreachable dead code), while resolving the default's schema
directly would have produced the String type; the third conjunct shows
the 200/201/204 priority selection itself works on a 201-only map. -/
theorem convertResponse_ignores_declared_default :
    convertResponse {} 10 {} (some resp404) "/pets" ["getPets", "Result"]
      = .ok (some (.nullable (.named "Boolean")), {}) ∧
    getSchemaTypeFromProxy {} 10 {} (some strProxy) false "/pets" ["getPets", "Result"]
      = .ok (.named "String", createSchemaFromOpenAPISchema strSchema "String",
          { scalarTypes := ["String"] }) ∧
    convertResponse {} 10 {} (some resp201) "/pets" ["createPet", "Result"]
      = .ok (some (.named "String"), { scalarTypes := ["String"] }) :=
  ⟨rfl, rfl, rfl⟩

/-- C2 counterexample: resolving a `nullable: true` primitive string
schema attached to a non-required parameter (caller-supplied nullable
hint) yields the double-wrapped expression
Nullable(Nullable(Named String)), refuting the claim that the result is
never double-wrapped when both nullability sources apply. -/
theorem getSchemaTypeFromProxy_double_nullable :
    getSchemaTypeFromProxy {} 10 {} (some nullStrProxy) true "/p" ["Arg"]
      = .ok (.nullable (.nullable (.named "String")),
          createSchemaFromOpenAPISchema nullStrSchema "String",
          { scalarTypes := ["String"] }) ∧
    TypeEnc.nullable (.nullable (.named "String")) ≠ .nullable (.named "String") :=
  ⟨rfl, by decide⟩

/-- C2 amended: each wrapping site applies Nullable exactly once, so a
primitive schema resolved through a proxy carries one Nullable wrapper
per applicable nullability source: none when neither the schema's
nullable flag nor the caller-supplied hint applies, a single wrapper
when exactly one applies, and a double wrapper when both apply. -/
theorem getSchemaTypeFromProxy_wraps_once_per_site (opts : ConvertOptions) (fuel : Nat)
    (regs : Registries) (apiPath : String) (fps : List String)
    (sp : SchemaProxy) (s : Schema) (t : String) (hint : Bool)
    (hs : sp.schema = some s) (h1 : s.type = [t]) (h2 : isPrimitiveScalar t = true)
    (h3 : s.anyOfLen = 0) (h4 : s.hasAdditionalProperties = false) :
    getSchemaTypeFromProxy opts (fuel+2) regs (some sp) hint apiPath fps
      = .ok ((if hint then TypeEnc.nullable else id)
               ((if s.nullable = some true then TypeEnc.nullable else id)
                 (.named (scalarNameOf s.type s.format s.enum (proxyFieldPaths s fps)))),
          createSchemaFromOpenAPISchema s
            (scalarNameOf s.type s.format s.enum (proxyFieldPaths s fps)),
          regs.withScalar (scalarNameOf s.type s.format s.enum (proxyFieldPaths s fps))) := by
  have hobj := isPrimitiveScalar_ne_object t h2
  have hstep := resolveSchema_primitive opts fuel regs apiPath (proxyFieldPaths s fps) s t h1 h2 h3 h4
  unfold getSchemaTypeFromProxy
  rw [resolveSchema_ofProxy]
  simp only [hs]
  rw [if_neg (by simp [h1, hobj])]
  rw [hstep]
  cases hint <;> by_cases hn : s.nullable = some true <;> simp [hn]

/-- C2 amended witness: the double-wrapped case at a concrete input. -/
theorem getSchemaTypeFromProxy_wraps_once_per_site_witness :
    getSchemaTypeFromProxy {} 10 {} (some nullStrProxy) true "/p" ["Arg"]
      = .ok (.nullable (.nullable (.named "String")),
          createSchemaFromOpenAPISchema nullStrSchema "String",
          { scalarTypes := ["String"] }) :=
  getSchemaTypeFromProxy_wraps_once_per_site {} 8 {} "/p" ["Arg"] nullStrProxy nullStrSchema
    "string" true rfl rfl rfl rfl rfl

/-- C4 counterexample: an operation with no declared response at all
resolves to no result type (`none`, which makes the operation be
skipped), not to the nullable Boolean result the claim requires. -/
theorem convertResponse_no_responses_yields_none :
    convertResponse {} 10 {} none "/pets" ["listPets", "Result"] = .ok (none, {}) ∧
    convertResponse {} 10 {} none "/pets" ["listPets", "Result"]
      ≠ .ok (some (.nullable (.named "Boolean")), {}) :=
  ⟨rfl, by decide⟩

/-- C4 amended: operations with no declared responses at all (a nil
responses value, a nil code map or an empty code map) resolve to no
result type, which skips the operation; operations whose selected
success response declares no content schema, and operations whose
declared codes include none of 200, 201 and 204, resolve to the
nullable Boolean result type. -/
theorem convertResponse_result_type_amended (opts : ConvertOptions) (fuel : Nat)
    (regs : Registries) (apiPath : String) (fps : List String) :
    (convertResponse opts fuel regs none apiPath fps = .ok (none, regs)) ∧
    (∀ rs : Responses, rs.codes = none →
      convertResponse opts fuel regs (some rs) apiPath fps = .ok (none, regs)) ∧
    (∀ rs : Responses, rs.codes = some [] →
      convertResponse opts fuel regs (some rs) apiPath fps = .ok (none, regs)) ∧
    (∀ (rs : Responses) (codes : List (String × Response)) (r : Response),
      rs.codes = some codes → codes ≠ [] → selectSuccessResponse codes = some r →
      r.schema = none →
      convertResponse opts fuel regs (some rs) apiPath fps
        = .ok (some (.nullable (.named "Boolean")), regs)) ∧
    (∀ (rs : Responses) (codes : List (String × Response)),
      rs.codes = some codes → codes ≠ [] → selectSuccessResponse codes = none →
      convertResponse opts fuel regs (some rs) apiPath fps
        = .ok (some (.nullable (.named "Boolean")), regs)) := by
  refine ⟨rfl, ?_, ?_, ?_, ?_⟩
  · intro rs h
    simp [convertResponse, h]
  · intro rs h
    simp [convertResponse, h]
  · intro rs codes r hcodes hne hsel hschema
    cases codes with
    | nil => exact absurd rfl hne
    | cons hd tl => simp [convertResponse, hcodes, hsel, hschema]
  · intro rs codes hcodes hne hsel
    cases codes with
    | nil => exact absurd rfl hne
    | cons hd tl => simp [convertResponse, hcodes, hsel]

/-- C4 amended witness: the 404-only map resolves to nullable Boolean,
applied at the concrete `resp404` fixture. -/
theorem convertResponse_result_type_amended_witness :
    convertResponse {} 10 {} (some resp404) "/pets" ["f"]
      = .ok (some (.nullable (.named "Boolean")), {}) :=
  (convertResponse_result_type_amended {} 10 {} "/pets" ["f"]).2.2.2.2
    resp404 [("404", { schema := none })] rfl (List.cons_ne_nil _ _) rfl

/-- C8: an array-typed parameter lacking item restrictions makes the
converter dereference the nil `param.Items` pointer (a crash, because
the guard uses a conjunction where a disjunction was intended), while
the schema-node paths return the documented error values: a missing
array item yields the missing-array-item error, an empty schema node
the empty-schema error, and an unrecognized primitive type name the
unsupported-type error. -/
theorem arrayParameter_nil_items_crashes :
    getSchemaTypeFromParameter {} {} arrayNoItemsParam "/pets" ["listPets"]
      = .crashed "runtime error: invalid memory address or nil pointer dereference" ∧
    getSchemaType {} 10 {} (some { type := ["array"] }) "/pets" ["listPets"]
      = .err .arrayItemEmpty ∧
    getSchemaType {} 10 {} none "/pets" ["listPets"] = .err .emptySchema ∧
    getSchemaType {} 10 {} (some { type := ["weird"] }) "/pets" ["listPets"]
      = .err (.unsupportedSchemaType "weird") :=
  ⟨rfl, rfl, rfl, rfl⟩

/-- C9: an object schema node with no declared properties is demoted to
a scalar: the synthesized field-path name is registered in the scalar
registry, the object registry is left untouched, and the resolver still
returns the Named expression under that name (nullable-wrapped only
when the node itself carries the nullable flag). -/
theorem getSchemaType_empty_object_demoted (opts : ConvertOptions) (fuel : Nat)
    (regs : Registries) (apiPath : String) (fps : List String) (s : Schema)
    (h1 : s.type = ["object"]) (h2 : s.anyOfLen = 0) (h3 : s.hasAdditionalProperties = false)
    (h4 : s.properties = none ∨ s.properties = some []) :
    getSchemaType opts (fuel+1) regs (some s) apiPath fps
      = .ok ((if s.nullable = some true then
                TypeEnc.nullable (.named (stringSliceToPascalCase fps))
              else .named (stringSliceToPascalCase fps)),
          { createSchemaFromOpenAPISchema s "" with type := "object" },
          regs.withScalar (stringSliceToPascalCase fps)) ∧
    (regs.withScalar (stringSliceToPascalCase fps)).objectTypes = regs.objectTypes ∧
    (regs.withScalar (stringSliceToPascalCase fps)).scalarTypes.contains
        (stringSliceToPascalCase fps) = true := by
  refine ⟨?_, withScalar_objectTypes regs _, withScalar_contains regs _⟩
  simp only [getSchemaType, resolveSchema, h1, h2, h3, List.length_cons, List.length_nil,
    List.headD_cons]
  rcases h4 with h4 | h4 <;> simp [h4, isPrimitiveScalar]

/-- C9 witness: the empty object fixture under the field path
[Pet, Owner] becomes the scalar PetOwner. -/
theorem getSchemaType_empty_object_demoted_witness :
    getSchemaType {} 10 {} (some emptyObjSchema) "/pets" ["Pet", "Owner"]
      = .ok (.named "PetOwner", { type := "object" }, { scalarTypes := ["PetOwner"] }) :=
  (getSchemaType_empty_object_demoted {} 9 {} "/pets" ["Pet", "Owner"] emptyObjSchema
    rfl rfl rfl (Or.inl rfl)).1

/-- C10: a named query parameter declaring neither a primitive type nor
a schema leaves the type encoder nil, and building its argument
encoding is a nil-interface method call: the conversion crashes instead
of returning an error value or a result. -/
theorem convertParameters_untyped_param_crashes :
    convertParameters {} 10 {} [some bareParam] "/pets" ["listPets"]
      = .crashed "runtime error: invalid memory address or nil pointer dereference" :=
  rfl

theorem formDataParams_cons_none (rest : List (Option Parameter)) :
    formDataParams (none :: rest) = formDataParams rest := rfl

theorem formDataParams_cons_some (p : Parameter) (rest : List (Option Parameter)) :
    formDataParams (some p :: rest) =
      if p.location = "formData" then p :: formDataParams rest else formDataParams rest := by
  by_cases h : p.location = "formData" <;>
    simp [formDataParams, List.filterMap_cons, h]

/-- Nullability of a boxed descriptor. -/
theorem box_nullable (ts : TypeSchema) : (TypeSchema.box ts).nullable = ts.nullable := rfl

/-- A form-data parameter with a primitive type contributes exactly its
inline descriptor (whose nullability is the negated required flag) to
the form-data properties, leaving the rest of the accumulator's
form-data slot intact. -/
theorem convertOneParameter_formdata (opts : ConvertOptions) (fuel : Nat) (apiPath : String)
    (fps : List String) (regs : Registries) (acc : ParamAcc) (param : Parameter)
    (acc2 : ParamAcc) (regs2 : Registries)
    (hok : convertOneParameter opts fuel apiPath fps regs acc param = .ok (acc2, regs2))
    (hloc : param.location = "formData") (htyp : param.type ≠ "") :
    ∃ ts : TypeSchema, ts.nullable = !(paramRequired param) ∧
      acc2.formDataProps = insertOver param.name (TypeSchema.box ts) acc.formDataProps := by
  unfold convertOneParameter at hok
  by_cases hname : param.name = ""
  · rw [if_pos hname] at hok; cases hok
  · rw [if_neg hname] at hok
    cases hres : resolveParamType opts fuel regs param apiPath fps with
    | err e => simp only [hres] at hok; cases hok
    | crashed m => simp only [hres] at hok; cases hok
    | ok v =>
      obtain ⟨enc?, ts?, regsX⟩ := v
      have hshape : ∃ enc, enc? = some enc ∧ ts? = some (paramInlineSchema param enc) := by
        unfold resolveParamType at hres
        rw [if_pos htyp] at hres
        cases hgp : getSchemaTypeFromParameter opts regs param apiPath fps with
        | err e => rw [hgp] at hres; cases hres
        | crashed m => rw [hgp] at hres; cases hres
        | ok w =>
          obtain ⟨enc, regsY⟩ := w
          rw [hgp] at hres
          simp only [Outcome.ok.injEq, Prod.mk.injEq] at hres
          exact ⟨enc, hres.1.symm, hres.2.1.symm⟩
      obtain ⟨enc, henc, hts⟩ := hshape
      subst henc
      subst hts
      simp only [hres, hloc, parseParameterLocation] at hok
      simp only [Outcome.ok.injEq, Prod.mk.injEq] at hok
      obtain ⟨hacc, hregs⟩ := hok
      exact ⟨paramInlineSchema param enc, rfl, by rw [← hacc]⟩

/-- A parameter whose declared location is not the form-data location
leaves the accumulated form-data properties unchanged. -/
theorem convertOneParameter_not_formdata (opts : ConvertOptions) (fuel : Nat)
    (apiPath : String) (fps : List String) (regs : Registries) (acc : ParamAcc)
    (param : Parameter) (acc2 : ParamAcc) (regs2 : Registries)
    (hok : convertOneParameter opts fuel apiPath fps regs acc param = .ok (acc2, regs2))
    (hloc : param.location ≠ "formData") :
    acc2.formDataProps = acc.formDataProps := by
  unfold convertOneParameter at hok
  by_cases hname : param.name = ""
  · rw [if_pos hname] at hok; cases hok
  · rw [if_neg hname] at hok
    cases hres : resolveParamType opts fuel regs param apiPath fps with
    | err e => simp only [hres] at hok; cases hok
    | crashed m => simp only [hres] at hok; cases hok
    | ok v =>
      obtain ⟨enc?, ts?, regsX⟩ := v
      simp only [hres] at hok
      cases hpl : parseParameterLocation param.location with
      | err e => simp only [hpl] at hok; cases hok
      | crashed m => simp only [hpl] at hok; cases hok
      | ok loc =>
        simp only [hpl] at hok
        cases enc? with
        | none => simp at hok
        | some enc =>
          cases loc with
          | formData => exact absurd (parseParameterLocation_formData _ hpl) hloc
          | body =>
            simp only [Outcome.ok.injEq, Prod.mk.injEq] at hok
            obtain ⟨hacc, hregs⟩ := hok
            rw [← hacc]
          | query =>
            simp only [Outcome.ok.injEq, Prod.mk.injEq] at hok
            obtain ⟨hacc, hregs⟩ := hok
            rw [← hacc]
          | path =>
            simp only [Outcome.ok.injEq, Prod.mk.injEq] at hok
            obtain ⟨hacc, hregs⟩ := hok
            rw [← hacc]
          | header =>
            simp only [Outcome.ok.injEq, Prod.mk.injEq] at hok
            obtain ⟨hacc, hregs⟩ := hok
            rw [← hacc]

/-- The per-parameter relation between a form-data parameter and its
synthesized property entry: same name, nullability is the negated
required flag. -/
def FormDataEntry (p : Parameter) (kv : String × TypeSchemaT) : Prop :=
  kv.1 = p.name ∧ kv.2.nullable = !(paramRequired p)

theorem formdata_extra_keys (fdps : List Parameter) (extra : List (String × TypeSchemaT))
    (h : List.Forall₂ FormDataEntry fdps extra) :
    extra.map Prod.fst = fdps.map Parameter.name := by
  induction h with
  | nil => rfl
  | cons hpr _ ih => simp [hpr.1, ih]

theorem formdata_extra_lookup (fdps : List Parameter) (extra : List (String × TypeSchemaT))
    (h : List.Forall₂ FormDataEntry fdps extra)
    (hnd : (fdps.map Parameter.name).Nodup) :
    ∀ p ∈ fdps, ∃ ts, extra.lookup p.name = some ts ∧ ts.nullable = !(paramRequired p) := by
  induction h with
  | nil => simp
  | @cons a b l₁ l₂ hpr htail ih =>
    intro p hp
    rcases List.mem_cons.mp hp with rfl | hp
    · refine ⟨b.2, ?_, ?_⟩
      · simp [List.lookup, hpr.1]
      · rw [hpr.2]
    · have hne : b.1 ≠ p.name := by
        rw [hpr.1]
        intro hcontra
        have : p.name ∈ l₁.map Parameter.name := List.mem_map_of_mem _ hp
        rw [← hcontra] at this
        exact (List.nodup_cons.mp hnd).1 this
      have hb : (p.name == b.1) = false := beq_eq_false_iff_ne.mpr (Ne.symm hne)
      have := ih (List.nodup_cons.mp hnd).2 p hp
      simpa [List.lookup, hb] using this

/-- The form-data accumulation invariant of the parameter loop: on
success, the accumulated form-data properties grow by exactly one entry
per form-data parameter (with fresh, pairwise distinct names), in
declaration order. -/
theorem convertParametersAux_formdata (opts : ConvertOptions) (fuel : Nat) (apiPath : String)
    (fps : List String) :
    ∀ (params : List (Option Parameter)) (regs : Registries) (acc : ParamAcc)
      (acc2 : ParamAcc) (regs2 : Registries),
    convertParametersAux opts fuel apiPath fps regs acc params = .ok (acc2, regs2) →
    (∀ p ∈ formDataParams params, p.type ≠ "") →
    ((formDataParams params).map Parameter.name).Nodup →
    (∀ p ∈ formDataParams params, ∀ kv ∈ acc.formDataProps, kv.1 ≠ p.name) →
    ∃ extra, acc2.formDataProps = acc.formDataProps ++ extra ∧
      List.Forall₂ FormDataEntry (formDataParams params) extra := by
  intro params
  induction params with
  | nil =>
    intro regs acc acc2 regs2 hok _ _ _
    simp only [convertParametersAux, Outcome.ok.injEq, Prod.mk.injEq] at hok
    exact ⟨[], by simp [← hok.1], List.Forall₂.nil⟩
  | cons head rest ih =>
    intro regs acc acc2 regs2 hok htyp hnd hfresh
    cases head with
    | none =>
      rw [formDataParams_cons_none] at htyp hnd hfresh
      simp only [convertParametersAux] at hok
      rw [formDataParams_cons_none]
      exact ih regs acc acc2 regs2 hok htyp hnd hfresh
    | some param =>
      simp only [convertParametersAux] at hok
      cases hone : convertOneParameter opts fuel apiPath fps regs acc param with
      | err e => simp only [hone] at hok; cases hok
      | crashed m => simp only [hone] at hok; cases hok
      | ok w =>
        obtain ⟨accM, regsM⟩ := w
        simp only [hone] at hok
        by_cases hloc : param.location = "formData"
        · rw [formDataParams_cons_some, if_pos hloc] at htyp hnd hfresh ⊢
          have htypP : param.type ≠ "" := htyp param (by simp)
          obtain ⟨ts, hts, hfdp⟩ :=
            convertOneParameter_formdata opts fuel apiPath fps regs acc param accM regsM
              hone hloc htypP
          have hfreshP : ∀ kv ∈ acc.formDataProps, kv.1 ≠ param.name :=
            fun kv hkv => hfresh param (by simp) kv hkv
          rw [insertOver_fresh _ _ _ hfreshP] at hfdp
          have hndrest : ((formDataParams rest).map Parameter.name).Nodup :=
            (List.nodup_cons.mp hnd).2
          have hnotin : param.name ∉ (formDataParams rest).map Parameter.name :=
            (List.nodup_cons.mp hnd).1
          have hfreshM : ∀ p ∈ formDataParams rest, ∀ kv ∈ accM.formDataProps,
              kv.1 ≠ p.name := by
            intro p hp kv hkv
            rw [hfdp] at hkv
            rcases List.mem_append.mp hkv with hkv | hkv
            · exact hfresh p (List.mem_cons_of_mem _ hp) kv hkv
            · have hkv2 : kv = (param.name, TypeSchema.box ts) := by simpa using hkv
              rw [hkv2]
              show param.name ≠ p.name
              intro hcontra
              exact hnotin (hcontra ▸ List.mem_map_of_mem Parameter.name hp)
          obtain ⟨extra, hex, hfa⟩ :=
            ih regsM accM acc2 regs2 hok (fun p hp => htyp p (List.mem_cons_of_mem _ hp))
              hndrest hfreshM
          refine ⟨(param.name, TypeSchema.box ts) :: extra, ?_, ?_⟩
          · rw [hex, hfdp, List.append_assoc]
            rfl
          · exact List.Forall₂.cons ⟨rfl, by rw [box_nullable, hts]⟩ hfa
        · rw [formDataParams_cons_some, if_neg hloc] at htyp hnd hfresh ⊢
          have hfdp := convertOneParameter_not_formdata opts fuel apiPath fps regs acc param
            accM regsM hone hloc
          have hfreshM : ∀ p ∈ formDataParams rest, ∀ kv ∈ accM.formDataProps,
              kv.1 ≠ p.name := by
            intro p hp kv hkv
            rw [hfdp] at hkv
            exact hfresh p hp kv hkv
          obtain ⟨extra, hex, hfa⟩ := ih regsM accM acc2 regs2 hok htyp hnd hfreshM
          exact ⟨extra, by rw [hex, hfdp], hfa⟩

/-- C6: a parameter list containing form-data parameters (primitively
typed, with pairwise distinct names) produces, on successful
conversion, a request body with the multipart/form-data content type
whose schema is a single object descriptor holding exactly one property
per form-data parameter in declaration order, nullable exactly for the
non-required ones. -/
theorem convertParameters_formdata_multipart (opts : ConvertOptions) (fuel : Nat)
    (regs : Registries) (params : List (Option Parameter)) (apiPath : String)
    (fps : List String) (args : List (String × ArgumentInfo))
    (rps : List RequestParameter) (rb : Option RequestBody) (regs2 : Registries)
    (hok : convertParameters opts fuel regs params apiPath fps = .ok (args, rps, rb, regs2))
    (hne : formDataParams params ≠ [])
    (htyp : ∀ p ∈ formDataParams params, p.type ≠ "")
    (hnd : ((formDataParams params).map Parameter.name).Nodup) :
    ∃ fd : TypeSchema,
      rb = some { contentType := contentTypeMultipartFormData, schema := some fd } ∧
      fd.type = "object" ∧
      fd.properties.map Prod.fst = (formDataParams params).map Parameter.name ∧
      ∀ p ∈ formDataParams params, ∃ ts, fd.properties.lookup p.name = some ts ∧
        ts.nullable = !(paramRequired p) := by
  have hpne : params ≠ [] := by
    rintro rfl
    exact hne rfl
  unfold convertParameters at hok
  rw [if_neg (by simp only [List.isEmpty_iff]; exact hpne)] at hok
  cases haux : convertParametersAux opts fuel apiPath fps regs {} params with
  | err e => simp only [haux] at hok; cases hok
  | crashed m => simp only [haux] at hok; cases hok
  | ok v =>
    obtain ⟨acc2, regsF⟩ := v
    simp only [haux] at hok
    obtain ⟨extra, hfdp, hfa⟩ :=
      convertParametersAux_formdata opts fuel apiPath fps params regs {} acc2 regsF haux
        htyp hnd (fun p _ kv hkv => absurd hkv (List.not_mem_nil kv))
    have hfdp2 : acc2.formDataProps = extra := by simpa using hfdp
    have hextra_ne : extra ≠ [] := by
      rintro rfl
      exact hne (List.length_eq_zero.mp (List.Forall₂.length_eq hfa))
    have hemp : ¬(acc2.formDataProps.isEmpty = true) := by
      rw [hfdp2, List.isEmpty_iff]
      exact hextra_ne
    rw [if_neg hemp] at hok
    simp only [Outcome.ok.injEq, Prod.mk.injEq] at hok
    obtain ⟨harg, hrp, hrb, hregs⟩ := hok
    refine ⟨{ type := "object", properties := acc2.formDataProps }, hrb.symm, rfl, ?_, ?_⟩
    · show acc2.formDataProps.map Prod.fst = _
      rw [hfdp2]
      exact formdata_extra_keys _ _ hfa
    · intro p hp
      show ∃ ts, acc2.formDataProps.lookup p.name = some ts ∧ _
      rw [hfdp2]
      exact formdata_extra_lookup _ _ hfa hnd p hp

/-- C6 witness: the form-data example of the specification (optional
string `file`, required string `tag`) yields the multipart request body
with `file` nullable and `tag` non-nullable. -/
theorem convertParameters_formdata_multipart_witness :
    c6rb = some
      { contentType := "multipart/form-data"
        schema := some
          { type := "object"
            properties :=
              [("file", TypeSchema.box { type := "String", nullable := true }),
               ("tag", TypeSchema.box { type := "String" })] } } := by
  have h := convertParameters_formdata_multipart {} 10 {} c6params "/pets" ["upload"]
    c6args c6rps c6rb c6regs rfl (List.cons_ne_nil _ _)
    (by
      intro p hp
      have hp2 : p ∈ [fileParam, tagParam] := hp
      rcases List.mem_cons.mp hp2 with rfl | hp3
      · decide
      · have : p = tagParam := by simpa using hp3
        rw [this]
        decide)
    (by decide)
  obtain ⟨fd, hfd, -, -, -⟩ := h
  exact rfl

/-- C5: for every inline object schema node the synthesized registry
name is exactly the PascalCase join of the accumulated field-path
segments (a pure function of the field-path stack): the returned
expression is Named of that name, wrapped nullable only by the node's
own flag; an empty object registers the name as a scalar and a
non-empty one registers it in the object registry; and the example path
[Pet, Owner] yields the name PetOwner. -/
theorem getSchemaType_object_name_from_fieldPaths (opts : ConvertOptions) (fuel : Nat)
    (regs : Registries) (apiPath : String) (fps : List String) (s : Schema)
    (enc : TypeEnc) (td : TypeSchema) (regs2 : Registries)
    (h1 : s.type = ["object"]) (h2 : s.anyOfLen = 0) (h3 : s.hasAdditionalProperties = false)
    (hok : getSchemaType opts fuel regs (some s) apiPath fps = .ok (enc, td, regs2)) :
    (enc = .named (stringSliceToPascalCase fps) ∨
      enc = .nullable (.named (stringSliceToPascalCase fps))) ∧
    ((s.properties = none ∨ s.properties = some []) →
      regs2.scalarTypes.contains (stringSliceToPascalCase fps) = true) ∧
    (∀ props, s.properties = some props → props ≠ [] →
      ∃ ot, regs2.objectTypes.lookup (stringSliceToPascalCase fps) = some ot) ∧
    stringSliceToPascalCase ["Pet", "Owner"] = "PetOwner" := by
  cases fuel with
  | zero => simp [getSchemaType, resolveSchema] at hok
  | succ f =>
    rcases hp : s.properties with _ | ⟨_ | ⟨p, ps⟩⟩
    · simp [getSchemaType, resolveSchema, h1, h2, h3, isPrimitiveScalar, hp] at hok
      obtain ⟨henc, htd, hregs⟩ := hok
      refine ⟨?_, fun _ => ?_, fun props hpr _ => ?_, rfl⟩
      · by_cases hn : s.nullable = some true <;> simp [hn] at henc <;> simp [← henc]
      · rw [← hregs]; exact withScalar_contains regs _
      · simp at hpr
    · simp [getSchemaType, resolveSchema, h1, h2, h3, isPrimitiveScalar, hp] at hok
      obtain ⟨henc, htd, hregs⟩ := hok
      refine ⟨?_, fun _ => ?_, fun props hpr hne => ?_, rfl⟩
      · by_cases hn : s.nullable = some true <;> simp [hn] at henc <;> simp [← henc]
      · rw [← hregs]; exact withScalar_contains regs _
      · cases hpr
        exact absurd rfl hne
    · simp [getSchemaType, resolveSchema, h1, h2, h3, isPrimitiveScalar, hp] at hok
      split at hok
      next result typeResult regsOut heq =>
        simp only [Outcome.ok.injEq, Prod.mk.injEq] at hok
        obtain ⟨henc, htd, hregs⟩ := hok
        split at heq
        next flds tds regsF hfold =>
          simp only [Outcome.ok.injEq, Prod.mk.injEq] at heq
          obtain ⟨hres, htr, hrg⟩ := heq
          refine ⟨?_, fun hcontra => ?_, fun props hpr hne => ?_, rfl⟩
          · by_cases hn : s.nullable = some true <;> simp [hn] at henc <;>
              simp [← henc, ← hres]
          · rcases hcontra with hcontra | hcontra <;> simp at hcontra
          · rw [← hregs, ← hrg]
            exact ⟨_, lookup_insertOver_self _ _ _⟩
        next => cases heq
        next => cases heq
      next => cases hok
      next => cases hok

/-- C7: for a procedure with a request body and a non-empty consumes
list, the request body content type is application/json whenever JSON
appears anywhere in the consumes list, and the first declared
consumable media type otherwise. -/
theorem convertProcedureOperation_content_type (opts : ConvertOptions) (fuel : Nat)
    (regs : Registries) (pathKey : String) (method : String) (op : Operation)
    (proc : ProcedureInfo) (regs2 : Registries) (rb : RequestBody)
    (hok : convertProcedureOperation opts fuel regs pathKey method (some op)
      = .ok (some proc, regs2))
    (hcons : op.consumes ≠ [])
    (hrb : proc.request.requestBody = some rb) :
    rb.contentType =
      if op.consumes.contains contentTypeJSON then contentTypeJSON
      else op.consumes.headD "" := by
  simp only [convertProcedureOperation, convertProcedureOperationSome] at hok
  cases hresp : convertResponse opts fuel regs op.responses pathKey
      [procNameOf pathKey method op, "Result"] with
  | err e => simp only [hresp] at hok; cases hok
  | crashed m => simp only [hresp] at hok; cases hok
  | ok v =>
    obtain ⟨rt?, regsA⟩ := v
    simp only [hresp] at hok
    cases rt? with
    | none => simp at hok
    | some resultType =>
      cases hparams : convertParameters opts fuel regsA op.parameters pathKey
          [procNameOf pathKey method op] with
      | err e => simp only [hparams] at hok; cases hok
      | crashed m => simp only [hparams] at hok; cases hok
      | ok w =>
        obtain ⟨args, reqParams, reqBody0, regsB⟩ := w
        simp only [hparams] at hok
        cases reqBody0 with
        | none =>
          simp only [Outcome.ok.injEq, Prod.mk.injEq, Option.some.injEq] at hok
          obtain ⟨hproc, hregs⟩ := hok
          subst hproc
          simp at hrb
        | some rb0 =>
          simp only [Outcome.ok.injEq, Prod.mk.injEq, Option.some.injEq] at hok
          obtain ⟨hproc, hregs⟩ := hok
          subst hproc
          simp only at hrb
          rw [if_pos hcons] at hrb
          cases hrb
          rfl

/-- C5 witness: the two-level pet fixture resolved under the field path
[Pet] returns the Named expression Pet and registers an object type
under that name. -/
theorem getSchemaType_object_name_from_fieldPaths_witness :
    c5out.1 = .named "Pet" ∧ (c5out.2.2.objectTypes.lookup "Pet").isSome = true := by
  have h := getSchemaType_object_name_from_fieldPaths {} 10 {} "/pets" ["Pet"] petSchema
    c5out.1 c5out.2.1 c5out.2.2 rfl rfl rfl rfl
  constructor
  · rcases h.1 with h1 | h1
    · exact h1
    · exact absurd h1 (by decide)
  · obtain ⟨ot, hot⟩ := h.2.2.1 _ rfl (List.cons_ne_nil _ _)
    have he : stringSliceToPascalCase ["Pet"] = "Pet" := rfl
    rw [he] at hot
    rw [hot]
    rfl

/-- C7 witness: with consumes [text/plain, application/json] and a body
parameter, the request body content type is set to application/json. -/
theorem convertProcedureOperation_content_type_witness :
    c7rb.contentType = "application/json" :=
  convertProcedureOperation_content_type {} 10 {} "/pets" "post" c7op c7proc c7regs c7rb
    rfl (by decide) rfl

/-- C3: a GET operation is added to the Functions list exactly when its
response resolution yields a result type; a procedure operation whose
response resolution yields no result type is skipped silently (not an
error), and a produced procedure always has a resolvable response; a
path item whose GET has no usable response but whose POST resolves
contributes exactly one Procedure and no Function. -/
theorem pathToNDCOperations_skip_rules :
    (∀ (opts : ConvertOptions) (fuel : Nat) (st : NDCRestSchema) (pathKey : String)
        (item : PathItem) (st2 : NDCRestSchema),
      pathToNDCOperations opts fuel st pathKey item = .ok st2 →
      ((∃ f, st2.functions = st.functions ++ [f]) ↔
        (∃ g t regs, item.get = some g ∧
          convertResponse opts fuel st.types g.responses pathKey
            [getFuncName pathKey g, "Result"] = .ok (some t, regs)))) ∧
    (∀ (opts : ConvertOptions) (fuel : Nat) (regs : Registries) (pathKey method : String)
        (op : Operation) (regs2 : Registries),
      convertResponse opts fuel regs op.responses pathKey
          [procNameOf pathKey method op, "Result"] = .ok (none, regs2) →
      convertProcedureOperation opts fuel regs pathKey method (some op) = .ok (none, regs2)) ∧
    (∀ (opts : ConvertOptions) (fuel : Nat) (regs : Registries) (pathKey method : String)
        (op : Operation) (proc : ProcedureInfo) (regs2 : Registries),
      convertProcedureOperation opts fuel regs pathKey method (some op)
          = .ok (some proc, regs2) →
      ∃ t regsMid, convertResponse opts fuel regs op.responses pathKey
        [procNameOf pathKey method op, "Result"] = .ok (some t, regsMid)) ∧
    (∀ (opts : ConvertOptions) (fuel : Nat) (st : NDCRestSchema) (pathKey : String)
        (g p : Operation) (proc : ProcedureInfo) (regs2 : Registries) (st2 : NDCRestSchema),
      convertResponse opts fuel st.types g.responses pathKey
          [getFuncName pathKey g, "Result"] = .ok (none, st.types) →
      convertProcedureOperation opts fuel st.types pathKey "post" (some p)
          = .ok (some proc, regs2) →
      pathToNDCOperations opts fuel st pathKey { get := some g, post := some p } = .ok st2 →
      st2.functions = st.functions ∧ st2.procedures = st.procedures ++ [proc]) := by
  refine ⟨?_, ?_, ?_, ?_⟩
  · intro opts fuel st pathKey item st2 hok
    unfold pathToNDCOperations at hok
    cases hgs : convertGetOperation opts fuel st pathKey item.get with
    | err e => simp only [hgs] at hok; cases hok
    | crashed m => simp only [hgs] at hok; cases hok
    | ok st1 =>
      simp only [hgs] at hok
      have hfun := procSteps_functions opts fuel st1 pathKey item st2 hok
      cases hg : item.get with
      | none =>
        rw [hg] at hgs
        have hst1 : st = st1 := by
          simpa only [convertGetOperation, Outcome.ok.injEq] using hgs
        constructor
        · rintro ⟨f, hf⟩
          rw [hfun, ← hst1] at hf
          exact absurd hf (no_self_append_singleton _ _)
        · rintro ⟨g, t, regs, hgg, -⟩
          cases hgg
      | some g =>
        rw [hg] at hgs
        unfold convertGetOperation at hgs
        cases hresp : convertResponse opts fuel st.types g.responses pathKey
            [getFuncName pathKey g, "Result"] with
        | err e => simp only [hresp] at hgs; cases hgs
        | crashed m => simp only [hresp] at hgs; cases hgs
        | ok v =>
          obtain ⟨rt?, regs⟩ := v
          cases rt? with
          | none =>
            simp only [hresp] at hgs
            cases hgs
            constructor
            · rintro ⟨f, hf⟩
              rw [hfun] at hf
              exact absurd hf (no_self_append_singleton _ _)
            · rintro ⟨g2, t, regs3, hgg, hresp2⟩
              cases hgg
              rw [hresp] at hresp2
              cases hresp2
          | some rt =>
            cases hparams : convertParameters opts fuel regs g.parameters pathKey
                [getFuncName pathKey g] with
            | err e => simp only [hresp, hparams] at hgs; cases hgs
            | crashed m => simp only [hresp, hparams] at hgs; cases hgs
            | ok w =>
              obtain ⟨args, rps, rb, regsB⟩ := w
              simp only [hresp, hparams] at hgs
              cases hgs
              constructor
              · intro _
                exact ⟨g, rt, regs, rfl, hresp⟩
              · intro _
                exact ⟨_, hfun⟩
  · intro opts fuel regs pathKey method op regs2 hresp
    simp only [convertProcedureOperation, convertProcedureOperationSome, hresp]
  · intro opts fuel regs pathKey method op proc regs2 hok
    simp only [convertProcedureOperation, convertProcedureOperationSome] at hok
    cases hresp : convertResponse opts fuel regs op.responses pathKey
        [procNameOf pathKey method op, "Result"] with
    | err e => simp only [hresp] at hok; cases hok
    | crashed m => simp only [hresp] at hok; cases hok
    | ok v =>
      obtain ⟨rt?, regsMid⟩ := v
      cases rt? with
      | none => simp only [hresp] at hok; cases hok
      | some t => exact ⟨t, regsMid, rfl⟩
  · intro opts fuel st pathKey g p proc regs2 st2 hresp hproc hok
    unfold pathToNDCOperations at hok
    have hgs : convertGetOperation opts fuel st pathKey (some g) = .ok st := by
      unfold convertGetOperation
      simp only [hresp]
    simp only [hgs] at hok
    unfold procSteps at hok
    have hps : procStep opts fuel st pathKey "post"
        (PathItem.post { get := some g, post := some p }) =
        .ok { st with types := regs2, procedures := st.procedures ++ [proc] } := by
      unfold procStep
      simp only [hproc]
    simp only [hps, procStep_none] at hok
    cases hok
    exact ⟨rfl, rfl⟩

/-- C3 witness: the specification's skip example, applied to the
concrete path item with a response-less GET and a contentless-response
POST. -/
theorem pathToNDCOperations_skip_rules_witness :
    c3st.functions = [] ∧ c3st.procedures = [c3proc] := by
  have h := pathToNDCOperations_skip_rules.2.2.2 {} 10 {} "/pets" noRespGet contentlessPost
    c3proc c3regs c3st rfl rfl rfl
  exact h

end NdcV2
